import Mathlib

/-!
Verification development for the GATEKEEPER application (src/index.tsx).

The numeric JavaScript code is shallowly embedded: exact rational
arithmetic (ℚ) models the arithmetic-only routines (stability score,
PCM scaling, playback scheduling), real numbers (ℝ) model the
transcendental haversine distance, and the React component state is
modelled as an explicit record with the event handlers as state
transition functions.
-/

namespace Gatekeeper

/-! ## Stability score (src/index.tsx, handleOrientation, lines 216-227)

`handleOrientation` receives an orientation sample {alpha, beta, gamma}
(the code ignores samples with a null component; we model the non-null
samples as rational triples) and updates the stability score:

  movement = |beta| + |gamma|
  diff = |prev - (100 - movement / 5)|
  next = diff > 5 ? prev - 1 : prev < 100 ? prev + 0.5 : 100
-/

def handleOrientation (event : ℚ × ℚ × ℚ) (prev : ℚ) : ℚ :=
  let movement := |event.2.1| + |event.2.2|
  let diff := |prev - (100 - movement / 5)|
  if 5 < diff then prev - 1 else if prev < 100 then prev + 1 / 2 else 100

/-- The stability score after feeding a finite sequence of orientation
samples, starting from the initial score 100 (`useState(100)`). -/
def stabRun (events : List (ℚ × ℚ × ℚ)) : ℚ :=
  events.foldl (fun prev e => handleOrientation e prev) 100

/-! ## Geo distance utility (src/index.tsx, lines 35-50) -/

noncomputable def deg2rad (deg : ℝ) : ℝ :=
  deg * (Real.pi / 180)

/-- JavaScript Math.atan2(y, x). -/
noncomputable def atan2 (y x : ℝ) : ℝ :=
  if 0 < x then Real.arctan (y / x)
  else if x < 0 ∧ 0 ≤ y then Real.arctan (y / x) + Real.pi
  else if x < 0 then Real.arctan (y / x) - Real.pi
  else if 0 < y then Real.pi / 2
  else if y < 0 then -(Real.pi / 2)
  else 0

/-- Haversine distance in feet (Earth radius 20902231 ft). -/
noncomputable def getDistanceFromLatLonInFeet (lat1 lon1 lat2 lon2 : ℝ) : ℝ :=
  let R : ℝ := 20902231
  let dLat := deg2rad (lat2 - lat1)
  let dLon := deg2rad (lon2 - lon1)
  let a :=
    Real.sin (dLat / 2) * Real.sin (dLat / 2) +
    Real.cos (deg2rad lat1) * Real.cos (deg2rad lat2) *
    Real.sin (dLon / 2) * Real.sin (dLon / 2)
  let c := 2 * atan2 (Real.sqrt a) (Real.sqrt (1 - a))
  R * c

/-! ## Audio codec utility (src/index.tsx, lines 52-101)

`createBlob` scales floating-point samples by 32768, stores them into an
`Int16Array` (a store that truncates toward zero and then wraps modulo
2^16 into the signed 16-bit range), views the buffer as little-endian
bytes, builds a binary string and base64-encodes it with `btoa`.
`decode` is `atob` plus extraction of the character codes, and
`decodeAudioData` reinterprets the bytes as little-endian signed 16-bit
integers, de-interleaves per channel and divides by 32768.
-/

/-- Truncation toward zero of a rational number (JavaScript ToInteger). -/
def ratTrunc (x : ℚ) : ℤ :=
  if 0 ≤ x then ⌊x⌋ else ⌈x⌉

/-- JavaScript conversion performed by an `Int16Array` store: truncate
toward zero, reduce modulo 2^16, reinterpret as signed 16-bit. -/
def toInt16 (x : ℚ) : ℤ :=
  let n := ratTrunc x
  let m := n % 65536
  if 32768 ≤ m then m - 65536 else m

/-- Little-endian byte serialization of 16-bit integers
(`new Uint8Array(int16.buffer)`). -/
def int16sToBytes : List ℤ → List ℕ
  | [] => []
  | i :: rest =>
    let u := (i % 65536).toNat
    u % 256 :: u / 256 :: int16sToBytes rest

/-- Little-endian reinterpretation of bytes as signed 16-bit integers
(`new Int16Array(data.buffer)`). -/
def bytesToInt16s : List ℕ → List ℤ
  | b0 :: b1 :: rest =>
    (if 32768 ≤ b0 + 256 * b1 then (b0 : ℤ) + 256 * b1 - 65536
     else (b0 : ℤ) + 256 * b1) :: bytesToInt16s rest
  | _ => []

/-- The base64 alphabet character for a sextet. -/
def b64Char (n : ℕ) : Char :=
  if n < 26 then Char.ofNat (65 + n)
  else if n < 52 then Char.ofNat (97 + (n - 26))
  else if n < 62 then Char.ofNat (48 + (n - 52))
  else if n = 62 then '+'
  else '/'

/-- The sextet value of a base64 alphabet character. -/
def b64Val (c : Char) : ℕ :=
  if 65 ≤ c.toNat ∧ c.toNat ≤ 90 then c.toNat - 65
  else if 97 ≤ c.toNat ∧ c.toNat ≤ 122 then c.toNat - 97 + 26
  else if 48 ≤ c.toNat ∧ c.toNat ≤ 57 then c.toNat - 48 + 52
  else if c.toNat = 43 then 62
  else 63

/-- Standard base64 encoding of a byte sequence (`btoa` of the binary
string holding those byte values). -/
def b64encode : List ℕ → List Char
  | a :: b :: c :: rest =>
    b64Char (a / 4) :: b64Char (a % 4 * 16 + b / 16) ::
      b64Char (b % 16 * 4 + c / 64) :: b64Char (c % 64) :: b64encode rest
  | [a, b] =>
    [b64Char (a / 4), b64Char (a % 4 * 16 + b / 16), b64Char (b % 16 * 4), '=']
  | [a] => [b64Char (a / 4), b64Char (a % 4 * 16), '=', '=']
  | [] => []

/-- Standard base64 decoding back to bytes (`atob`). -/
def b64decode : List Char → List ℕ
  | w :: x :: y :: z :: rest =>
    if y = '=' then [b64Val w * 4 + b64Val x / 16]
    else if z = '=' then
      [b64Val w * 4 + b64Val x / 16, b64Val x % 16 * 16 + b64Val y / 4]
    else
      (b64Val w * 4 + b64Val x / 16) ::
        (b64Val x % 16 * 16 + b64Val y / 4) ::
        (b64Val y % 4 * 64 + b64Val z) :: b64decode rest
  | _ => []

/-- The byte payload produced by `createBlob` before base64 encoding:
each sample is scaled by 32768, stored as a signed 16-bit integer and
serialized little-endian. -/
def createBlobBytes (data : List ℚ) : List ℕ :=
  int16sToBytes (data.map fun x => toInt16 (x * 32768))

/-- `createBlob` (src/index.tsx, lines 82-101): returns the base64
payload together with the fixed MIME descriptor. -/
def createBlob (data : List ℚ) : String × String :=
  (String.mk (b64encode (createBlobBytes data)), "audio/pcm;rate=16000")

/-- `decode` (src/index.tsx, lines 53-61): base64 string to bytes. -/
def decode (base64 : String) : List ℕ :=
  b64decode base64.data

/-- `decodeAudioData` (src/index.tsx, lines 63-80): reinterpret the bytes
as 16-bit integers, de-interleave `numChannels` channels of
`frameCount = length / numChannels` frames, rescale to [-1, 1). The
sample rate only tags the output buffer and does not affect samples. -/
def decodeAudioData (data : List ℕ) (sampleRate numChannels : ℕ) :
    List (List ℚ) :=
  let dataInt16 := bytesToInt16s data
  let frameCount := dataInt16.length / numChannels
  (List.range numChannels).map fun channel =>
    (List.range frameCount).map fun i =>
      ((dataInt16.getD (i * numChannels + channel) 0 : ℤ) : ℚ) / 32768

/-! ## Application state machine (src/index.tsx, App component)

The React component state and the refs are modelled as one record; the
geolocation success callback (lines 236-257) and `startTest`
(lines 287-375) are its transition functions. The state machine is
generic over an ordered field of scalars and takes the distance function
as a parameter (the application instantiates it with
`getDistanceFromLatLonInFeet`, section 4.1 of the spec); the claims
about the proximity monitor constrain only the computed distances.
-/

inductive Status where
  | STANDBY
  | SECURE
  | VIOLATION
  | TESTING
deriving DecidableEq

structure AppState (α : Type) where
  home : Option (α × α)
  status : Status
  testActive : Bool
  currentDistance : α
  aiClientPresent : Bool
  streamPresent : Bool
  sessionOpen : Bool
  audioCtxOpen : Bool
  frameGrabberRunning : Bool
  startTestCalls : ℕ
  violationTransitions : ℕ
  alertsShown : ℕ

/-- Whether `new GoogleGenAI` runs at startup: `if (API_KEY)` is JavaScript
truthiness, so the client exists exactly when the key is present and
non-empty (src/index.tsx, lines 210-213). -/
def aiClientInit (apiKey : Option String) : Bool :=
  match apiKey with
  | none => false
  | some k => if k = "" then false else true

/-- `startTest` (src/index.tsx, lines 287-375): unconditionally sets
`testActive` and status TESTING, then returns early when the AI client or
the media stream is missing; otherwise it opens the audio contexts, the
live session and the frame grabber. -/
def startTest {α : Type} (s : AppState α) : AppState α :=
  let s1 := { s with testActive := true, status := Status.TESTING,
                     startTestCalls := s.startTestCalls + 1 }
  if s1.aiClientPresent && s1.streamPresent then
    { s1 with audioCtxOpen := true, sessionOpen := true,
              frameGrabberRunning := true }
  else s1

/-- The geolocation success callback (src/index.tsx, lines 236-257): the
first fix establishes the home location and mode SECURE; a later fix
updates the distance and, when it exceeds 15 while the mode is SECURE and
no test is active, transitions to VIOLATION and invokes `startTest`
(which immediately moves the mode on to TESTING). -/
def stepFix {α : Type} [LinearOrderedField α] (d : α × α → α × α → α)
    (s : AppState α) (fix : α × α) : AppState α :=
  match s.home with
  | none => { s with home := some fix, status := Status.SECURE }
  | some h =>
    let dist := d h fix
    let s1 := { s with currentDistance := dist }
    if 15 < dist ∧ s1.status = Status.SECURE ∧ s1.testActive = false then
      startTest { s1 with status := Status.VIOLATION,
                          violationTransitions := s1.violationTransitions + 1 }
    else s1

/-- Processing a sequence of location fixes. -/
def runFixes {α : Type} [LinearOrderedField α] (d : α × α → α × α → α)
    (s : AppState α) (fixes : List (α × α)) : AppState α :=
  fixes.foldl (stepFix d) s

/-! ## Playback scheduler (src/index.tsx, onmessage, lines 340-359)

Each decoded clip arrives at some current time `now` and is scheduled at
`start = max(now, nextStartTime)`; afterwards
`nextStartTime = start + duration`. `nextStartTimeRef` starts at 0.
A clip is the pair (arrival time, duration).
-/

def scheduleClips (nextStartTime : ℚ) : List (ℚ × ℚ) → List ℚ
  | [] => []
  | (now, dur) :: rest =>
    let start := max now nextStartTime
    start :: scheduleClips (start + dur) rest

/-- Non-overlap of a list of (start, duration) pairs: each clip ends no
later than the next one starts. -/
def NoOverlap : List (ℚ × ℚ) → Prop
  | (s1, d1) :: (s2, d2) :: rest => s1 + d1 ≤ s2 ∧ NoOverlap ((s2, d2) :: rest)
  | _ => True

/-! ## Theorems -/

theorem nat_chunk_div (x y k : ℕ) (hy : y < k) : (x * k + y) / k = x := by
  have hk : 0 < k := by omega
  rw [mul_comm, add_comm, Nat.add_mul_div_left _ _ hk, Nat.div_eq_of_lt hy,
    zero_add]

theorem nat_chunk_mod (x y k : ℕ) (hy : y < k) : (x * k + y) % k = y := by
  rw [mul_comm, add_comm, Nat.add_mul_mod_self_left, Nat.mod_eq_of_lt hy]

theorem b64Val_b64Char : ∀ n < 64, b64Val (b64Char n) = n := by decide

theorem b64Char_ne_pad : ∀ n < 64, b64Char n ≠ '=' := by decide

/-- Base64 decoding inverts base64 encoding on byte sequences. -/
theorem b64decode_b64encode :
    ∀ bs : List ℕ, (∀ b ∈ bs, b < 256) → b64decode (b64encode bs) = bs
  | [], _ => rfl
  | [a], h => by
    have ha : a < 256 := h a (by simp)
    have h1 : a / 4 < 64 := by omega
    have h2 : a % 4 * 16 < 64 := by omega
    simp only [b64encode, b64decode, if_pos rfl, if_true, List.cons.injEq, and_true]
    rw [b64Val_b64Char _ h1, b64Val_b64Char _ h2,
      Nat.mul_div_cancel _ (by norm_num : 0 < 16)]
    omega
  | [a, b], h => by
    have ha : a < 256 := h a (by simp)
    have hb : b < 256 := h b (by simp)
    have h1 : a / 4 < 64 := by omega
    have h2 : a % 4 * 16 + b / 16 < 64 := by omega
    have h3 : b % 16 * 4 < 64 := by omega
    simp only [b64encode, b64decode, if_neg (b64Char_ne_pad _ h3), if_pos rfl,
      if_true, List.cons.injEq, and_true]
    rw [b64Val_b64Char _ h1, b64Val_b64Char _ h2, b64Val_b64Char _ h3,
      nat_chunk_div (a % 4) (b / 16) 16 (by omega),
      nat_chunk_mod (a % 4) (b / 16) 16 (by omega),
      Nat.mul_div_cancel _ (by norm_num : 0 < 4)]
    omega
  | a :: b :: c :: rest, h => by
    have ha : a < 256 := h a (by simp)
    have hb : b < 256 := h b (by simp)
    have hc : c < 256 := h c (by simp)
    have ih := b64decode_b64encode rest (fun x hx => h x (by simp [hx]))
    have h1 : a / 4 < 64 := by omega
    have h2 : a % 4 * 16 + b / 16 < 64 := by omega
    have h3 : b % 16 * 4 + c / 64 < 64 := by omega
    have h4 : c % 64 < 64 := by omega
    simp only [b64encode, b64decode, if_neg (b64Char_ne_pad _ h3),
      if_neg (b64Char_ne_pad _ h4), ih, List.cons.injEq, and_true]
    rw [b64Val_b64Char _ h1, b64Val_b64Char _ h2, b64Val_b64Char _ h3,
      b64Val_b64Char _ h4,
      nat_chunk_div (a % 4) (b / 16) 16 (by omega),
      nat_chunk_mod (a % 4) (b / 16) 16 (by omega),
      nat_chunk_div (b % 16) (c / 64) 4 (by omega),
      nat_chunk_mod (b % 16) (c / 64) 4 (by omega)]
    refine ⟨by omega, by omega, by omega⟩

/-- The serialized bytes are genuine byte values. -/
theorem int16sToBytes_lt :
    ∀ ints : List ℤ, ∀ b ∈ int16sToBytes ints, b < 256
  | [], b, hb => by simp [int16sToBytes] at hb
  | i :: rest, b, hb => by
    simp only [int16sToBytes, List.mem_cons] at hb
    have hu : (i % 65536).toNat < 65536 := by omega
    rcases hb with h | h | h
    · omega
    · omega
    · exact int16sToBytes_lt rest b h

/-- Reinterpreting the little-endian bytes recovers the 16-bit integers. -/
theorem bytesToInt16s_int16sToBytes :
    ∀ ints : List ℤ, (∀ i ∈ ints, -32768 ≤ i ∧ i < 32768) →
      bytesToInt16s (int16sToBytes ints) = ints
  | [], _ => rfl
  | i :: rest, h => by
    obtain ⟨h1, h2⟩ := h i (by simp)
    have ih := bytesToInt16s_int16sToBytes rest (fun j hj => h j (by simp [hj]))
    simp only [int16sToBytes, bytesToInt16s, ih, List.cons.injEq, and_true]
    split_ifs <;> omega

/-- `toInt16` always lands in the signed 16-bit range. -/
theorem toInt16_range (x : ℚ) : -32768 ≤ toInt16 x ∧ toInt16 x < 32768 := by
  unfold toInt16
  dsimp only
  split_ifs <;> omega

/-- When the truncated value is already in range, the Int16Array store does
not wrap. -/
theorem toInt16_eq_ratTrunc (x : ℚ) (hlo : -32768 ≤ ratTrunc x)
    (hhi : ratTrunc x < 32768) : toInt16 x = ratTrunc x := by
  unfold toInt16
  dsimp only
  split_ifs <;> omega

/-- Truncation toward zero moves a rational by strictly less than 1. -/
theorem ratTrunc_bounds (y : ℚ) : |y - (ratTrunc y : ℚ)| < 1 := by
  unfold ratTrunc
  split_ifs with h
  · have hf : (⌊y⌋ : ℚ) ≤ y := Int.floor_le y
    have hf2 := Int.lt_floor_add_one y
    rw [abs_of_nonneg (by linarith)]
    push_cast at hf2 ⊢
    linarith
  · have hc : y ≤ (⌈y⌉ : ℚ) := Int.le_ceil y
    have hc2 := Int.ceil_lt_add_one y
    rw [abs_of_nonpos (by linarith)]
    push_cast at hc2 ⊢
    linarith

/-- For samples in [-1, 1) the scaled truncation stays in the signed
16-bit range. -/
theorem ratTrunc_scaled_range (x : ℚ) (h1 : -1 ≤ x) (h2 : x < 1) :
    -32768 ≤ ratTrunc (x * 32768) ∧ ratTrunc (x * 32768) < 32768 := by
  have hy1 : (-32768 : ℚ) ≤ x * 32768 := by linarith
  have hy2 : x * 32768 < 32768 := by linarith
  unfold ratTrunc
  split_ifs with h
  · constructor
    · have h0 : (0 : ℤ) ≤ ⌊x * 32768⌋ := Int.floor_nonneg.mpr h
      omega
    · have hfl : (⌊x * 32768⌋ : ℚ) ≤ x * 32768 := Int.floor_le _
      have : (⌊x * 32768⌋ : ℚ) < 32768 := by linarith
      exact_mod_cast this
  · constructor
    · have : (-32768 : ℚ) ≤ (⌈x * 32768⌉ : ℚ) := le_trans hy1 (Int.le_ceil _)
      exact_mod_cast this
    · have : ⌈x * 32768⌉ ≤ 0 := by
        rw [Int.ceil_le]
        push_cast
        linarith [not_le.mp h]
      omega

/-- Quantization error bound of the scaled truncation. -/
theorem ratTrunc_quant (x : ℚ) :
    |((ratTrunc (x * 32768) : ℤ) : ℚ) / 32768 - x| ≤ 1 / 32768 := by
  have h : |x * 32768 - (ratTrunc (x * 32768) : ℚ)| < 1 := ratTrunc_bounds _
  have heq : ((ratTrunc (x * 32768) : ℤ) : ℚ) / 32768 - x
      = -((x * 32768 - (ratTrunc (x * 32768) : ℚ)) / 32768) := by ring
  rw [heq, abs_neg, abs_div, abs_of_pos (by norm_num : (0 : ℚ) < 32768)]
  exact (div_le_div_iff_of_pos_right (by norm_num)).mpr (le_of_lt h)

/-- `decode` inverts the base64 layer of `createBlob`. -/
theorem decode_createBlob (data : List ℚ) :
    decode (createBlob data).1 = createBlobBytes data := by
  show b64decode (b64encode (createBlobBytes data)) = createBlobBytes data
  exact b64decode_b64encode _ (int16sToBytes_lt _)

theorem range_map_getD (l : List ℤ) :
    (List.range l.length).map (fun i => ((l.getD i 0 : ℤ) : ℚ) / 32768)
      = l.map fun z => ((z : ℤ) : ℚ) / 32768 := by
  apply List.ext_getElem
  · simp
  · intro i h1 h2
    simp only [List.getElem_map, List.getElem_range]
    rw [List.getD_eq_getElem]

/-- The mono decode of an encoded buffer of in-range samples is exactly the
per-sample scaled truncation. -/
theorem decodeAudioData_createBlob (data : List ℚ) (rate : ℕ)
    (h : ∀ x ∈ data, -1 ≤ x ∧ x < 1) :
    decodeAudioData (decode (createBlob data).1) rate 1 =
      [data.map fun x => ((ratTrunc (x * 32768) : ℤ) : ℚ) / 32768] := by
  rw [decode_createBlob]
  unfold decodeAudioData createBlobBytes
  rw [bytesToInt16s_int16sToBytes _ (by
    intro i hi
    simp only [List.mem_map] at hi
    obtain ⟨x, _, rfl⟩ := hi
    exact toInt16_range _)]
  simp only [List.range_succ, List.range_zero, List.nil_append, List.map_cons,
    List.map_nil, Nat.div_one, mul_one, add_zero]
  rw [range_map_getD (data.map fun x => toInt16 (x * 32768)), List.map_map]
  refine congrArg (fun l => [l]) (List.map_congr_left ?_)
  intro x hx
  obtain ⟨hx1, hx2⟩ := h x hx
  obtain ⟨hr1, hr2⟩ := ratTrunc_scaled_range x hx1 hx2
  simp only [Function.comp]
  rw [toInt16_eq_ratTrunc _ hr1 hr2]

/-- Claim C2 (amended): encoding a buffer of samples each in [-1, 1) with
`createBlob` and decoding the payload with `decode` and `decodeAudioData`
at the same sample rate and a single channel yields one channel of the
same length whose samples differ from the originals by at most 1/32768.
The claim as stated, over the closed interval [-1, 1], fails at the sample
1, which the Int16Array store wraps around to -32768 (see the
counterexample). -/
theorem createBlob_roundtrip (data : List ℚ) (i : ℕ) (hi : i < data.length)
    (h : ∀ x ∈ data, -1 ≤ x ∧ x < 1) :
    ((decodeAudioData (decode (createBlob data).1) 16000 1).headD []).length
        = data.length ∧
    |((decodeAudioData (decode (createBlob data).1) 16000 1).headD []).getD i 0
        - data.getD i 0| ≤ 1 / 32768 := by
  rw [decodeAudioData_createBlob data 16000 h]
  simp only [List.headD_cons]
  refine ⟨by simp, ?_⟩
  have hi2 : i <
      (data.map fun x => ((ratTrunc (x * 32768) : ℤ) : ℚ) / 32768).length := by
    simpa using hi
  rw [List.getD_eq_getElem _ _ hi2, List.getD_eq_getElem _ _ hi,
    List.getElem_map]
  exact ratTrunc_quant _

/-- Witness for the C2 round-trip at the concrete two-sample buffer
[1/2, -1/2], checked at index 0. -/
theorem createBlob_roundtrip_witness :
    ((0 : ℕ) < [(1 : ℚ)/2, -1/2].length) ∧
    (((decodeAudioData (decode (createBlob [(1 : ℚ)/2, -1/2]).1) 16000 1).headD
        []).length = [(1 : ℚ)/2, -1/2].length ∧
      |((decodeAudioData (decode (createBlob [(1 : ℚ)/2, -1/2]).1) 16000
          1).headD []).getD 0 0 - [(1 : ℚ)/2, -1/2].getD 0 0| ≤ 1 / 32768) :=
  ⟨by norm_num,
    createBlob_roundtrip [(1 : ℚ)/2, -1/2] 0 (by norm_num) (by
      intro x hx
      rcases List.mem_cons.mp hx with rfl | hx2
      · norm_num
      · rcases List.mem_cons.mp hx2 with rfl | hx3
        · norm_num
        · simp at hx3)⟩

/-- Counterexample for C2: the boundary sample 1 lies in the claimed interval
[-1, 1], but 1 * 32768 = 32768 wraps to -32768 in the Int16Array store, so
the decoded buffer is [-1]: the round-trip error is 2, far above the
claimed 1/32768 bound. -/
theorem createBlob_roundtrip_cex :
    decodeAudioData (decode (createBlob [(1 : ℚ)]).1) 16000 1 = [[-1]] ∧
      ¬ |(-1 : ℚ) - 1| ≤ 1 / 32768 := by
  have h32 : ((1 : ℚ) * 32768) = ((32768 : ℤ) : ℚ) := by norm_num
  have htr : ratTrunc ((1 : ℚ) * 32768) = 32768 := by
    rw [h32]
    unfold ratTrunc
    rw [if_pos (by positivity), Int.floor_intCast]
  have hti : toInt16 ((1 : ℚ) * 32768) = -32768 := by
    unfold toInt16
    dsimp only
    rw [htr]
    decide
  have hbytes : createBlobBytes [(1 : ℚ)] = [0, 128] := by
    unfold createBlobBytes
    simp only [List.map_cons, List.map_nil, hti]
    decide
  have hdec : decode (createBlob [(1 : ℚ)]).1 = [0, 128] := by
    show b64decode (b64encode (createBlobBytes [(1 : ℚ)])) = [0, 128]
    rw [hbytes]
    decide
  have hints : bytesToInt16s [0, 128] = [-32768] := by decide
  constructor
  · unfold decodeAudioData
    rw [hdec]
    simp only [hints, List.range_succ, List.range_zero, List.nil_append,
      List.map_cons, List.map_nil, Nat.div_one, mul_one, add_zero,
      List.length_cons, List.length_nil, List.getD_cons_zero]
    norm_num
  · norm_num

/-- Auxiliary invariant for the stability score: every reachable score is a
half-integer bounded above by 100, and the update rule preserves this. -/
theorem handleOrientation_inv (e : ℚ × ℚ × ℚ) (q : ℚ)
    (hle : q ≤ 100) (hgrid : ∃ n : ℤ, q = n / 2) :
    handleOrientation e q ≤ 100 ∧ ∃ n : ℤ, handleOrientation e q = n / 2 := by
  obtain ⟨n, rfl⟩ := hgrid
  unfold handleOrientation
  dsimp only
  split_ifs with h1 h2
  · exact ⟨by linarith, n - 2, by push_cast; ring⟩
  · have h200 : (n : ℚ) < 200 := by linarith
    have hn : n < 200 := by exact_mod_cast h200
    have hn1 : n + 1 ≤ 200 := hn
    have hn1q : (n : ℚ) + 1 ≤ 200 := by exact_mod_cast hn1
    exact ⟨by linarith, n + 1, by push_cast; ring⟩
  · exact ⟨le_refl _, 200, by norm_num⟩

theorem stabRun_foldl_le (events : List (ℚ × ℚ × ℚ)) :
    ∀ q : ℚ, q ≤ 100 → (∃ n : ℤ, q = n / 2) →
      events.foldl (fun prev e => handleOrientation e prev) q ≤ 100 := by
  induction events with
  | nil => intro q hq _; simpa using hq
  | cons e rest ih =>
      intro q hq hg
      have h := handleOrientation_inv e q hq hg
      simpa using ih (handleOrientation e q) h.1 h.2

/-- Claim C1 (amended): for every finite NaN-free sequence of orientation samples,
the stability score (initialized to 100) never exceeds 100 at any step: since
the sequence is arbitrary, every step of a run is the final score of a
prefix. The lower bound 0 claimed by the spec does not hold (see the
counterexample): the update rule has no clamp at 0. -/
theorem stabRun_le_100 (events : List (ℚ × ℚ × ℚ)) : stabRun events ≤ 100 :=
  stabRun_foldl_le events 100 le_rfl ⟨200, by norm_num⟩

/-- A sample with beta = 1000 keeps the target 100 - movement/5 = -100 far
from any score above -94, so the update always takes the `prev - 1` branch. -/
theorem handleOrientation_big (q : ℚ) (h : -94 ≤ q) :
    handleOrientation ((0 : ℚ), 1000, 0) q = q - 1 := by
  have h1 : (100 : ℚ) - (|(1000 : ℚ)| + |(0 : ℚ)|) / 5 = -100 := by norm_num
  have h2 : |q - (-100 : ℚ)| = q + 100 := by
    rw [sub_neg_eq_add, abs_of_nonneg (by linarith)]
  unfold handleOrientation
  dsimp only
  rw [h1, h2, if_pos (by linarith : (5 : ℚ) < q + 100)]

theorem stabRun_replicate_big :
    ∀ (m : ℕ) (q : ℚ), -94 + m ≤ q →
      List.foldl (fun prev e => handleOrientation e prev) q
        (List.replicate m ((0 : ℚ), 1000, 0)) = q - m
  | 0, q, _ => by simp
  | m + 1, q, h => by
      have hm : (0 : ℚ) ≤ (m : ℚ) := by positivity
      have hcast : ((m + 1 : ℕ) : ℚ) = (m : ℚ) + 1 := by push_cast; ring
      rw [hcast] at h
      have hq : -94 ≤ q := by linarith
      rw [List.replicate_succ, List.foldl_cons, handleOrientation_big q hq,
        stabRun_replicate_big m (q - 1) (by linarith)]
      rw [hcast]; ring

/-- Counterexample for C1: feeding 101 samples with beta = 1000 (movement 1000)
drives the stability score to -1, strictly below the claimed lower bound 0. -/
theorem stabRun_below_zero :
    stabRun (List.replicate 101 ((0 : ℚ), 1000, 0)) < 0 := by
  have h := stabRun_replicate_big 101 100 (by norm_num)
  unfold stabRun
  rw [h]
  norm_num

/-- Claim C9: the haversine distance of any coordinate pair to itself is exactly 0. -/
theorem getDistance_self (lat lon : ℝ) :
    getDistanceFromLatLonInFeet lat lon lat lon = 0 := by
  unfold getDistanceFromLatLonInFeet
  simp [deg2rad, atan2]

/-- Claim C10: the haversine distance is symmetric in its two coordinate pairs. -/
theorem getDistance_symm (lat1 lon1 lat2 lon2 : ℝ) :
    getDistanceFromLatLonInFeet lat1 lon1 lat2 lon2 =
      getDistanceFromLatLonInFeet lat2 lon2 lat1 lon1 := by
  have h1 : deg2rad (lat1 - lat2) = -(deg2rad (lat2 - lat1)) := by
    unfold deg2rad; ring
  have h2 : deg2rad (lon1 - lon2) = -(deg2rad (lon2 - lon1)) := by
    unfold deg2rad; ring
  have ha :
      Real.sin (deg2rad (lat1 - lat2) / 2) * Real.sin (deg2rad (lat1 - lat2) / 2) +
        Real.cos (deg2rad lat2) * Real.cos (deg2rad lat1) *
        Real.sin (deg2rad (lon1 - lon2) / 2) * Real.sin (deg2rad (lon1 - lon2) / 2) =
      Real.sin (deg2rad (lat2 - lat1) / 2) * Real.sin (deg2rad (lat2 - lat1) / 2) +
        Real.cos (deg2rad lat1) * Real.cos (deg2rad lat2) *
        Real.sin (deg2rad (lon2 - lon1) / 2) * Real.sin (deg2rad (lon2 - lon1) / 2) := by
    rw [h1, h2]
    simp only [neg_div, Real.sin_neg]
    ring
  unfold getDistanceFromLatLonInFeet
  simp only [ha]

/-- A concrete application state used to instantiate the hypotheses of the
state machine theorems: home established at the origin, mode SECURE, no
test active, nothing open. -/
def secureState : AppState ℚ :=
  { home := some (0, 0), status := Status.SECURE, testActive := false,
    currentDistance := 0, aiClientPresent := false, streamPresent := false,
    sessionOpen := false, audioCtxOpen := false, frameGrabberRunning := false,
    startTestCalls := 0, violationTransitions := 0, alertsShown := 0 }

/-- Claim C3: from a state with a home location, mode SECURE and no active test,
a fix farther than 15 feet transitions the mode to VIOLATION and invokes
`startTest` exactly once (the mode then reads TESTING because `startTest`
sets it immediately); a subsequent far fix, the mode now being TESTING,
triggers neither a second VIOLATION transition nor a second `startTest`
call. -/
theorem violation_once {α : Type} [LinearOrderedField α]
    (d : α × α → α × α → α) (s : AppState α) (h fix1 fix2 : α × α)
    (hh : s.home = some h) (hst : s.status = Status.SECURE)
    (hta : s.testActive = false)
    (h1 : 15 < d h fix1) (h2 : 15 < d h fix2) :
    (stepFix d s fix1).violationTransitions = s.violationTransitions + 1 ∧
    (stepFix d s fix1).startTestCalls = s.startTestCalls + 1 ∧
    (stepFix d s fix1).status = Status.TESTING ∧
    (stepFix d s fix1).testActive = true ∧
    (stepFix d (stepFix d s fix1) fix2).violationTransitions
        = (stepFix d s fix1).violationTransitions ∧
    (stepFix d (stepFix d s fix1) fix2).startTestCalls
        = (stepFix d s fix1).startTestCalls := by
  obtain ⟨home, status, testActive, dist0, ai, stream, sess, actx, fg,
    stc, vt, al⟩ := s
  simp only at hh hst hta
  subst hh hst hta
  cases ai <;> cases stream <;>
    simp [stepFix, startTest, h1, h2]

/-- Witness for C3: the concrete SECURE state with a constant distance
function reporting 16 feet. -/
theorem violation_once_witness :
    (secureState.home = some ((0 : ℚ), 0) ∧
      secureState.status = Status.SECURE ∧
      secureState.testActive = false ∧
      (15 : ℚ) < (fun _ _ => (16 : ℚ)) ((0 : ℚ), 0) ((20 : ℚ), 0) ∧
      (15 : ℚ) < (fun _ _ => (16 : ℚ)) ((0 : ℚ), 0) ((40 : ℚ), 0)) ∧
    ((stepFix (fun _ _ => (16 : ℚ)) secureState ((20 : ℚ), 0)).violationTransitions
        = secureState.violationTransitions + 1 ∧
      (stepFix (fun _ _ => (16 : ℚ)) secureState ((20 : ℚ), 0)).startTestCalls
        = secureState.startTestCalls + 1 ∧
      (stepFix (fun _ _ => (16 : ℚ)) secureState ((20 : ℚ), 0)).status
        = Status.TESTING ∧
      (stepFix (fun _ _ => (16 : ℚ)) secureState ((20 : ℚ), 0)).testActive
        = true ∧
      (stepFix (fun _ _ => (16 : ℚ))
          (stepFix (fun _ _ => (16 : ℚ)) secureState ((20 : ℚ), 0))
          ((40 : ℚ), 0)).violationTransitions
        = (stepFix (fun _ _ => (16 : ℚ)) secureState
            ((20 : ℚ), 0)).violationTransitions ∧
      (stepFix (fun _ _ => (16 : ℚ))
          (stepFix (fun _ _ => (16 : ℚ)) secureState ((20 : ℚ), 0))
          ((40 : ℚ), 0)).startTestCalls
        = (stepFix (fun _ _ => (16 : ℚ)) secureState
            ((20 : ℚ), 0)).startTestCalls) :=
  ⟨⟨rfl, rfl, rfl, by norm_num, by norm_num⟩,
    violation_once (fun _ _ => (16 : ℚ)) secureState (0, 0) (20, 0) (40, 0)
      rfl rfl rfl (by norm_num) (by norm_num)⟩

/-- Processing fixes that all stay within 15 feet of the home location
changes nothing but the displayed distance. -/
theorem runFixes_within_15 {α : Type} [LinearOrderedField α]
    (d : α × α → α × α → α) (h : α × α) :
    ∀ (fixes : List (α × α)) (s : AppState α), s.home = some h →
      (∀ f ∈ fixes, d h f ≤ 15) →
      (runFixes d s fixes).home = some h ∧
      (runFixes d s fixes).status = s.status ∧
      (runFixes d s fixes).violationTransitions = s.violationTransitions ∧
      (runFixes d s fixes).startTestCalls = s.startTestCalls
  | [], s, hh, _ => ⟨hh, rfl, rfl, rfl⟩
  | f :: rest, s, hh, hd => by
    have hf : d h f ≤ 15 := hd f (List.mem_cons_self f rest)
    have hstep : stepFix d s f = { s with currentDistance := d h f } := by
      simp only [stepFix, hh]
      rw [if_neg]
      intro hc
      exact absurd hc.1 (not_lt.mpr hf)
    have ih := runFixes_within_15 d h rest
      ({ s with currentDistance := d h f })
      (by simpa using hh) (fun g hg => hd g (List.mem_cons_of_mem f hg))
    show (runFixes d s (f :: rest)).home = some h ∧ _
    rw [runFixes, List.foldl_cons, hstep]
    exact ih

/-- Claim C4: with a home location established, a sequence of fixes whose computed
distances are all at most 15 feet never transitions the mode to VIOLATION
at any step: after any prefix of the sequence both the violation-transition
count and the mode are exactly as before. -/
theorem no_violation_within_15 {α : Type} [LinearOrderedField α]
    (d : α × α → α × α → α) (s : AppState α) (h : α × α)
    (pre suf : List (α × α)) (hh : s.home = some h)
    (hd : ∀ f ∈ pre ++ suf, d h f ≤ 15) :
    (runFixes d s pre).violationTransitions = s.violationTransitions ∧
    (runFixes d s pre).status = s.status := by
  have hres := runFixes_within_15 d h pre s hh
    (fun f hf => hd f (List.mem_append_left suf hf))
  exact ⟨hres.2.2.1, hres.2.1⟩

/-- Witness for C4: two in-range fixes under a constant distance function
reporting 15 feet (the threshold is strict). -/
theorem no_violation_within_15_witness :
    (secureState.home = some ((0 : ℚ), 0)) ∧
    ((runFixes (fun _ _ => (15 : ℚ)) secureState
        [((1 : ℚ), 0), ((2 : ℚ), 0)]).violationTransitions
      = secureState.violationTransitions ∧
    (runFixes (fun _ _ => (15 : ℚ)) secureState
        [((1 : ℚ), 0), ((2 : ℚ), 0)]).status = secureState.status) :=
  ⟨rfl,
    no_violation_within_15 (fun _ _ => (15 : ℚ)) secureState (0, 0)
      [((1 : ℚ), 0), ((2 : ℚ), 0)] [] rfl
      (by intro f hf; norm_num)⟩

/-- The home location, once set, is preserved by every later fix. -/
theorem runFixes_home_stable {α : Type} [LinearOrderedField α]
    (d : α × α → α × α → α) (h : α × α) :
    ∀ (fixes : List (α × α)) (s : AppState α), s.home = some h →
      (runFixes d s fixes).home = some h
  | [], _, hh => hh
  | f :: rest, s, hh => by
    have hstep : (stepFix d s f).home = some h := by
      simp only [stepFix, hh]
      split_ifs
      · simp only [startTest]
        split_ifs <;> rfl
      · rfl
    show (runFixes d (stepFix d s f) rest).home = some h
    exact runFixes_home_stable d h rest _ hstep

/-- Claim C6: the first successful fix establishes the home location at exactly
that fix and sets the mode SECURE, and no later sequence of fixes ever
changes the home location again. -/
theorem home_set_once {α : Type} [LinearOrderedField α]
    (d : α × α → α × α → α) (s : AppState α) (f : α × α)
    (fixes : List (α × α)) (h0 : s.home = none) :
    (stepFix d s f).home = some f ∧
    (stepFix d s f).status = Status.SECURE ∧
    (runFixes d (stepFix d s f) fixes).home = some f := by
  have hstep : stepFix d s f
      = { s with home := some f, status := Status.SECURE } := by
    simp only [stepFix, h0]
  refine ⟨by rw [hstep], by rw [hstep], ?_⟩
  exact runFixes_home_stable d f fixes _ (by rw [hstep])

/-- Witness for C6: a standby state with no home location, one first fix
and one subsequent fix. -/
theorem home_set_once_witness :
    ({ secureState with home := none, status := Status.STANDBY }.home
        = (none : Option (ℚ × ℚ))) ∧
    ((stepFix (fun _ _ => (16 : ℚ))
        { secureState with home := none, status := Status.STANDBY }
        ((3 : ℚ), 4)).home = some ((3 : ℚ), 4) ∧
      (stepFix (fun _ _ => (16 : ℚ))
        { secureState with home := none, status := Status.STANDBY }
        ((3 : ℚ), 4)).status = Status.SECURE ∧
      (runFixes (fun _ _ => (16 : ℚ))
        (stepFix (fun _ _ => (16 : ℚ))
          { secureState with home := none, status := Status.STANDBY }
          ((3 : ℚ), 4))
        [((5 : ℚ), 6)]).home = some ((3 : ℚ), 4)) :=
  ⟨rfl,
    home_set_once (fun _ _ => (16 : ℚ))
      { secureState with home := none, status := Status.STANDBY }
      ((3 : ℚ), 4) [((5 : ℚ), 6)] rfl⟩

/-- Claim C7: `startTest` sets the test-active flag and the mode TESTING before
checking its preconditions; when the AI client or the media stream is
missing it returns early, leaving the mode TESTING and the flag set with
no session, no audio context and no frame grabber. -/
theorem startTest_early_return {α : Type} (s : AppState α)
    (hmiss : s.aiClientPresent = false ∨ s.streamPresent = false)
    (hsess : s.sessionOpen = false) (hctx : s.audioCtxOpen = false)
    (hfg : s.frameGrabberRunning = false) :
    (startTest s).testActive = true ∧
    (startTest s).status = Status.TESTING ∧
    (startTest s).sessionOpen = false ∧
    (startTest s).audioCtxOpen = false ∧
    (startTest s).frameGrabberRunning = false := by
  unfold startTest
  rcases hmiss with hm | hm <;> simp [hm, hsess, hctx, hfg]

/-- Witness for C7: the concrete state with no AI client and no stream. -/
theorem startTest_early_return_witness :
    (secureState.aiClientPresent = false ∧ secureState.sessionOpen = false ∧
      secureState.audioCtxOpen = false ∧
      secureState.frameGrabberRunning = false) ∧
    ((startTest secureState).testActive = true ∧
      (startTest secureState).status = Status.TESTING ∧
      (startTest secureState).sessionOpen = false ∧
      (startTest secureState).audioCtxOpen = false ∧
      (startTest secureState).frameGrabberRunning = false) :=
  ⟨⟨rfl, rfl, rfl, rfl⟩,
    startTest_early_return secureState (Or.inl rfl) rfl rfl rfl⟩

/-- Claim C8: an absent API key constructs no AI client, and `startTest` in a
state with no AI client opens no session and surfaces no alert. -/
theorem no_api_key_silent {α : Type} (s : AppState α)
    (hai : s.aiClientPresent = aiClientInit none)
    (hsess : s.sessionOpen = false) :
    aiClientInit none = false ∧
    (startTest s).sessionOpen = false ∧
    (startTest s).alertsShown = s.alertsShown := by
  refine ⟨rfl, ?_, ?_⟩ <;>
    simp [startTest, hai, hsess, aiClientInit]

/-- Witness for C8 at the concrete state. -/
theorem no_api_key_silent_witness :
    (secureState.aiClientPresent = aiClientInit none ∧
      secureState.sessionOpen = false) ∧
    (aiClientInit none = false ∧
      (startTest secureState).sessionOpen = false ∧
      (startTest secureState).alertsShown = secureState.alertsShown) :=
  ⟨⟨rfl, rfl⟩, no_api_key_silent secureState rfl rfl⟩

/-- Non-overlap and in-order scheduling of `scheduleClips`, for every
starting value of the next-start-time reference. -/
theorem scheduleClips_props :
    ∀ (clips : List (ℚ × ℚ)) (next : ℚ), (∀ c ∈ clips, 0 ≤ c.2) →
      NoOverlap ((scheduleClips next clips).zip (clips.map Prod.snd)) ∧
      List.Chain' (· ≤ ·) (scheduleClips next clips)
  | [], _, _ => ⟨trivial, List.chain'_nil⟩
  | [(now, dur)], next, _ => by
    simp [scheduleClips, NoOverlap]
  | (now1, d1) :: (now2, d2) :: rest, next, h => by
    have hd1 : 0 ≤ d1 := h (now1, d1) (by simp)
    have ih := scheduleClips_props ((now2, d2) :: rest) (max now1 next + d1)
      (fun c hc => h c (List.mem_cons_of_mem _ hc))
    simp only [scheduleClips] at ih ⊢
    refine ⟨⟨le_max_right _ _, ih.1⟩, ?_⟩
    rw [List.chain'_cons]
    constructor
    · calc max now1 next ≤ max now1 next + d1 := by linarith
        _ ≤ max now2 (max now1 next + d1) := le_max_right _ _
    · exact ih.2

/-- Claim C5: the playback scheduler starts each clip at the later of its arrival
time and the end of the previously scheduled clip, so for nonnegative
durations consecutive scheduled clips never overlap and are never
reordered; three clips of durations 1, 1/2 and 2 arriving at time 0 with
the reference starting at 0 are scheduled at 0, 1 and 3/2. -/
theorem playback_schedule (clips : List (ℚ × ℚ)) (next : ℚ)
    (hdur : ∀ c ∈ clips, 0 ≤ c.2) :
    NoOverlap ((scheduleClips next clips).zip (clips.map Prod.snd)) ∧
    List.Chain' (· ≤ ·) (scheduleClips next clips) ∧
    scheduleClips 0 [(0, 1), (0, 1/2), (0, 2)] = [0, 1, 3/2] := by
  obtain ⟨h1, h2⟩ := scheduleClips_props clips next hdur
  refine ⟨h1, h2, ?_⟩
  norm_num [scheduleClips, max_def]

/-- Witness for C5 at the concrete clip list of the spec scenario. -/
theorem playback_schedule_witness :
    NoOverlap ((scheduleClips 0 [((0 : ℚ), (1 : ℚ)), (0, 1/2), (0, 2)]).zip
        ([((0 : ℚ), (1 : ℚ)), (0, 1/2), (0, 2)].map Prod.snd)) ∧
      List.Chain' (· ≤ ·)
        (scheduleClips 0 [((0 : ℚ), (1 : ℚ)), (0, 1/2), (0, 2)]) ∧
      scheduleClips 0 [(0, 1), (0, 1/2), (0, 2)] = [0, 1, 3/2] :=
  playback_schedule [((0 : ℚ), (1 : ℚ)), (0, 1/2), (0, 2)] 0 (by
    intro c hc
    rcases List.mem_cons.mp hc with rfl | hc2
    · norm_num
    rcases List.mem_cons.mp hc2 with rfl | hc3
    · norm_num
    rcases List.mem_cons.mp hc3 with rfl | hc4
    · norm_num
    simp at hc4)

end Gatekeeper
